import Mathlib

/-!
Verification development for `src/semantic_segmentation_integrate_node.cpp`
(strands-project-releases/semantic_segmentation).

The node's `Labeler` class offers two service handlers, `label_cloud` and
`label_cloud_plus`, which acquire a colored point cloud and a sensor origin
from external services, convert the cloud's colors to Lab, voxelize it,
filter out small supervoxels, classify each retained supervoxel once with a
random forest, build CRF unary and pairwise feature matrices, run external
dense-CRF inference, decode per-point hard labels / probabilities /
frequencies, recolor the voxelized cloud, store it under the request's
waypoint id and publish the fusion of all stored clouds.

The embedding below models machine floats as rationals (with IEEE division
by zero modelled explicitly, see `floatDiv`), point clouds as lists of
points, and every external collaborator (OpenCV color conversion,
voxelization, random forest, dense-CRF solver, label/color table) as a
function parameter bundled in `Collab`.
-/

/-- A colored 3-D point, mirroring `pcl::PointXYZRGBA` (position, RGB color
channels and alpha). Float coordinates are modelled as rationals, 8-bit
channels as naturals. -/
structure Pt where
  x : ℚ
  y : ℚ
  z : ℚ
  r : ℕ
  g : ℕ
  b : ℕ
  a : ℕ
deriving DecidableEq, Inhabited

/-- A colored 3-D point without alpha, mirroring `pcl::PointXYZRGB`
(the element type of the fused cloud built in `publish_clouds`,
lines 394-414). -/
structure PtC where
  x : ℚ
  y : ℚ
  z : ℚ
  r : ℕ
  g : ℕ
  b : ℕ
deriving DecidableEq, Inhabited

/-- The position components of a point. -/
def pos (p : Pt) : ℚ × ℚ × ℚ := (p.x, p.y, p.z)

/-- Copying one fused point in `publish_clouds` (lines 406-412): x, y, z, r,
g, b are copied field by field into a fresh `pcl::PointXYZRGB`. -/
def toRGB (p : Pt) : PtC := ⟨p.x, p.y, p.z, p.r, p.g, p.b⟩

/-- A supervoxel/segment: its member point indices into the voxelized cloud
(`Voxel::getIndices`). Its size (`Voxel::getSize`) is the number of member
indices. -/
structure Voxel where
  indices : List ℕ
deriving DecidableEq, Inhabited

/-- Segment size, `Voxel::getSize` (compared against `_minimum_points` at
line 121). -/
def Voxel.size (v : Voxel) : ℕ := v.indices.length

/-- The configuration options read in the constructor and in `label_cloud`
(lines 44, 133-137, 151), plus the label space loaded from the label
converter (lines 42-43, 203). -/
structure Config where
  C : ℕ
  minimum_points : ℕ
  appearance_color_sigma : ℚ
  appearance_range_sigma : ℚ
  appearance_weight : ℚ
  smoothnes_range_sigma : ℚ
  smoothnes_weight : ℚ
  crf_iterations : ℕ
  labelNames : List String

/-- External collaborators of the pipeline, modelled as opaque-to-us
functions: the OpenCV BGR-to-Lab pixel conversion (line 101), the
voxelization `DataLoader::extractVoxels` (line 112, also given the sensor
origin attached to the cloud at line 81), the random forest
`classLogPosterior` (line 145), the label-to-color table
`RgbLabelConversion::labelToRgb` (line 179), and the dense-CRF solver
(given the unary matrix, the two pairwise feature matrices, the two Potts
weights and the iteration count; returns the probability matrix as a
function of class and column, lines 148-151). -/
structure Collab where
  bgr2lab : ℕ × ℕ × ℕ → ℕ × ℕ × ℕ
  extractVoxels : List Pt → ℚ × ℚ × ℚ → List (ℕ × Voxel) × List Pt
  classLogPosterior : Voxel → List ℚ
  l2rgb : ℕ → ℕ × ℕ × ℕ
  inferenceRun : List (List ℚ) → List (List ℚ) → List (List ℚ) → ℚ → ℚ → ℕ → ℕ → ℕ → ℚ

/-- Conversion of the cloud's colors to Lab (lines 94-107): the b, g, r
channels of each point are pushed into a matrix, converted by OpenCV, and
written back channel-wise into the same fields. -/
def labConvert (bgr2lab : ℕ × ℕ × ℕ → ℕ × ℕ × ℕ) (cloud : List Pt) : List Pt :=
  cloud.map (fun p =>
    let c := bgr2lab (p.b, p.g, p.r)
    { p with b := c.1, g := c.2.1, r := c.2.2 })

/-- Blacking out the whole voxelized cloud before relabeling
(lines 154-158). -/
def blackOut (cl : List Pt) : List Pt :=
  cl.map (fun p => { p with r := 0, g := 0, b := 0 })

/-- The voxel filter loop (lines 117-129): voxels with fewer than
`minimum_points` member points are erased from the map; for each retained
voxel its size is added to `N` and `computeFeatures` is called once. The
result is `(N, retained voxels in order, feature-computation call events in
order)`. -/
def filterLoop (minPts : ℕ) : List (ℕ × Voxel) → ℕ × List (ℕ × Voxel) × List ℕ
  | [] => (0, [], [])
  | kv :: rest =>
    if minPts ≤ kv.2.size then
      let r := filterLoop minPts rest
      (kv.2.size + r.1, kv :: r.2.1, kv.1 :: r.2.2)
    else
      filterLoop minPts rest

/-- Modelled from the spec: `Voxel::addDataToCrfMats` is declared in
`voxel.h`, which is not part of this repository's sources; the spec
describes it as writing, for each member point of the voxel in order, the
voxel's class posterior into the unary matrix column at the running point
index, the point's position (scaled by the appearance range sigma) and Lab
color (scaled by the appearance color sigma) into the 6-row appearance
feature matrix, and the position (scaled by the smoothness range sigma)
into the 3-row smoothness feature matrix, advancing the running point index
by the voxel's size. Matrices are modelled as lists of columns, so the
per-voxel contribution is the list of columns appended at the running
point index. -/
def addDataToCrfMats (voxCloud : List Pt) (post : List ℚ) (v : Voxel)
    (acs ars srs : ℚ) : List (List ℚ) × List (List ℚ) × List (List ℚ) :=
  (v.indices.map (fun _ => post),
   v.indices.map (fun i =>
     let p := voxCloud.getD i default
     [p.x / ars, p.y / ars, p.z / ars, (p.r : ℚ) / acs, (p.g : ℚ) / acs, (p.b : ℚ) / acs]),
   v.indices.map (fun i =>
     let p := voxCloud.getD i default
     [p.x / srs, p.y / srs, p.z / srs]))

/-- The matrix building loop (lines 143-147): for each retained voxel, the
forest's `classLogPosterior` is called once on the voxel's features and the
voxel's data is appended to the unary and pairwise feature matrices at the
running point index. The result is `(unary columns, appearance feature
columns, smoothness feature columns, classifier call events in order)`. -/
def buildLoop (cls : Voxel → List ℚ) (voxCloud : List Pt) (acs ars srs : ℚ) :
    List (ℕ × Voxel) → List (List ℚ) × List (List ℚ) × List (List ℚ) × List ℕ
  | [] => ([], [], [], [])
  | kv :: rest =>
    let post := cls kv.2
    let m := addDataToCrfMats voxCloud post kv.2 acs ars srs
    let r := buildLoop cls voxCloud acs ars srs rest
    (m.1 ++ r.1, m.2.1 ++ r.2.1, m.2.2 ++ r.2.2.1, kv.1 :: r.2.2.2)

/-- The inner argmax scan (lines 170-177): starting from label 0 with its
probability as the current best, each class `c` in the remaining list
replaces the current best exactly when its probability is strictly
greater. -/
def argmaxFrom (col : ℕ → ℚ) : ℕ → ℚ → List ℕ → ℕ
  | lab, _, [] => lab
  | lab, best, c :: cs =>
    if col c > best then argmaxFrom col c (col c) cs
    else argmaxFrom col lab best cs

/-- Hard label decoding for one probability matrix column (lines 170-177):
`max_label` starts at class 0 with `max_prob = map(0, j)` and the loop runs
over classes `1, ..., C-1`. -/
def decodeLabel (C : ℕ) (col : ℕ → ℚ) : ℕ :=
  argmaxFrom col 0 (col 0) (List.range' 1 (C - 1))

/-- Overwriting the color channels of one point (lines 180-182). -/
def recolorPt (p : Pt) (c : ℕ × ℕ × ℕ) : Pt :=
  { p with r := c.1, g := c.2.1, b := c.2.2 }

/-- Overwriting the color channels of the point at index `i` of the cloud
(lines 180-182); out-of-range indices leave the cloud unchanged. -/
def recolorAt : List Pt → ℕ → ℕ × ℕ × ℕ → List Pt
  | [], _, _ => []
  | p :: ps, 0, c => recolorPt p c :: ps
  | p :: ps, Nat.succ n, c => p :: recolorAt ps n c

/-- The frequency accumulation for one point (line 188):
`label_frequencies[c] += map(c, point_index)` for every class `c`, starting
from class index `cIdx`. -/
def bumpFreqsFrom (col : ℕ → ℚ) : ℕ → List ℚ → List ℚ
  | _, [] => []
  | cIdx, f :: fs => (f + col cIdx) :: bumpFreqsFrom col (cIdx + 1) fs

/-- The label decoding loop (lines 166-192) over the flattened member
indices of the retained voxels, with the running point index `j`: for each
member index `i`, the hard label of column `j` is decoded, the voxelized
cloud point at `i` is recolored with the label's color, the label is
appended to the result labels, column `j`'s probabilities are appended to
the row-major probability vector, and the per-class frequency accumulator
is bumped. The result is `(labels, probabilities, frequencies, recolored
cloud)`. -/
def decodeLoop (C : ℕ) (mapP : ℕ → ℕ → ℚ) (l2rgb : ℕ → ℕ × ℕ × ℕ) :
    List ℕ → ℕ → List ℚ → List Pt → List ℕ × List ℚ × List ℚ × List Pt
  | [], _, freqs, cl => ([], [], freqs, cl)
  | i :: is, j, freqs, cl =>
    let lab := decodeLabel C (fun c => mapP c j)
    let cl2 := recolorAt cl i (l2rgb lab)
    let row := (List.range C).map (fun c => mapP c j)
    let freqs2 := bumpFreqsFrom (fun c => mapP c j) 0 freqs
    let r := decodeLoop C mapP l2rgb is (j + 1) freqs2 cl2
    (lab :: r.1, row ++ r.2.1, r.2.2.1, r.2.2.2)

/-- IEEE single-precision division as performed at line 197
(`label_frequencies[j] /= float(N)`), with division by zero (which yields
NaN for a zero numerator and an infinity otherwise, never a finite value)
modelled as `none`. -/
def floatDiv (x n : ℚ) : Option ℚ := if n = 0 then none else some (x / n)

/-- The flattened member indices of the retained voxels, in segment-major,
point-minor order: the iteration order shared by the matrix building loop
(lines 143-147), the decoding loop (lines 166-192) and the points loop
(lines 209-218). -/
def colOrder (kept : List (ℕ × Voxel)) : List ℕ :=
  (kept.map (fun kv => kv.2.indices)).flatten

/-- The flattened member indices of the retained voxels, each paired with
its owning voxel: position `j` of this list is the physical point behind
column `j` of every matrix and result array. -/
def zipOrder (kept : List (ℕ × Voxel)) : List (ℕ × Voxel) :=
  (kept.map (fun kv => kv.2.indices.map (fun i => (i, kv.2)))).flatten

/-- The final points loop (lines 209-218): position `j` of the response's
points array receives the coordinates of the voxelized cloud point at the
`j`-th flattened member index. -/
def pointsLoop (cl : List Pt) (is : List ℕ) : List (ℚ × ℚ × ℚ) :=
  is.map (fun i => pos (cl.getD i default))

/-- The service response fields filled at lines 203-218. The frequency
entries are `Option ℚ` because the normalization at line 197 can produce
NaN (`floatDiv`). -/
structure Response where
  index_to_label_name : List String
  label : List ℕ
  label_probabilities : List ℚ
  label_frequencies : List (Option ℚ)
  points : List (ℚ × ℚ × ℚ)
deriving DecidableEq

/-- The store update `_stored_waypoints[req.waypoint_id] = voxelized_cloud`
(line 220): `std::map` keeps entries sorted by key and `operator[]` either
overwrites the existing entry or inserts a new one at its sorted
position. -/
def storeObs : List (String × List Pt) → String → List Pt → List (String × List Pt)
  | [], k, v => [(k, v)]
  | (k2, v2) :: rest, k, v =>
    if k = k2 then (k, v) :: rest
    else if k < k2 then (k, v) :: (k2, v2) :: rest
    else (k2, v2) :: storeObs rest k v

/-- Lookup of a stored waypoint cloud by its identifier (the read side of
`_stored_waypoints`). -/
def lookupStore : List (String × List Pt) → String → Option (List Pt)
  | [], _ => none
  | (k2, v2) :: rest, k => if k = k2 then some v2 else lookupStore rest k

/-- The fusion loop of `publish_clouds` (lines 398-414): the points of all
stored clouds are copied field by field, in store order, into one fused
cloud. -/
def fuseLoop : List (String × List Pt) → List PtC
  | [] => []
  | (_, cl) :: rest => cl.map toRGB ++ fuseLoop rest

/-- `Labeler::publish_clouds` (lines 394-425): rebuilds the fused cloud
from all stored waypoint clouds and publishes it. The published message is
modelled as the fused point list. -/
def publish_clouds (store : List (String × List Pt)) : List PtC :=
  fuseLoop store

/-- The voxelization stage (lines 94-112): Lab color conversion followed by
`extractVoxels`, which receives the cloud with its sensor origin. Returns
the supervoxel map and the voxelized cloud. -/
def voxelizationOf (ext : Collab) (origin : ℚ × ℚ × ℚ) (cloud : List Pt) :
    List (ℕ × Voxel) × List Pt :=
  ext.extractVoxels (labConvert ext.bgr2lab cloud) origin

/-- The retained voxels of a request (the state of `voxels` after the
filter loop, lines 117-129). -/
def keptOf (cfg : Config) (ext : Collab) (origin : ℚ × ℚ × ℚ) (cloud : List Pt) :
    List (ℕ × Voxel) :=
  (filterLoop cfg.minimum_points (voxelizationOf ext origin cloud).1).2.1

/-- The retained point count `N` of a request (line 117-130). -/
def nOf (cfg : Config) (ext : Collab) (origin : ℚ × ℚ × ℚ) (cloud : List Pt) : ℕ :=
  (filterLoop cfg.minimum_points (voxelizationOf ext origin cloud).1).1

/-- The CRF matrices of a request (lines 138-147). -/
def matsOf (cfg : Config) (ext : Collab) (origin : ℚ × ℚ × ℚ) (cloud : List Pt) :
    List (List ℚ) × List (List ℚ) × List (List ℚ) × List ℕ :=
  buildLoop ext.classLogPosterior (voxelizationOf ext origin cloud).2
    cfg.appearance_color_sigma cfg.appearance_range_sigma cfg.smoothnes_range_sigma
    (keptOf cfg ext origin cloud)

/-- The probability matrix returned by CRF inference for a request
(lines 148-151), as a function of class and column index. -/
def crfMapOf (cfg : Config) (ext : Collab) (origin : ℚ × ℚ × ℚ) (cloud : List Pt) :
    ℕ → ℕ → ℚ :=
  ext.inferenceRun (matsOf cfg ext origin cloud).1 (matsOf cfg ext origin cloud).2.1
    (matsOf cfg ext origin cloud).2.2.1 cfg.appearance_weight cfg.smoothnes_weight
    cfg.crf_iterations

/-- The decoding stage of a request (lines 154-192): the voxelized cloud is
blacked out, then the decoding loop runs over the flattened member indices
of the retained voxels starting at point index 0 with an all-zero frequency
accumulator of length `C`. -/
def decodeOf (cfg : Config) (ext : Collab) (origin : ℚ × ℚ × ℚ) (cloud : List Pt) :
    List ℕ × List ℚ × List ℚ × List Pt :=
  decodeLoop cfg.C (crfMapOf cfg ext origin cloud) ext.l2rgb
    (colOrder (keptOf cfg ext origin cloud)) 0 (List.replicate cfg.C 0)
    (blackOut (voxelizationOf ext origin cloud).2)

/-- The post-acquisition body of `Labeler::label_cloud` (lines 94-224):
voxelize, filter, build matrices, infer, decode, fill the response, store
the recolored voxelized cloud under the waypoint id and publish the fused
cloud. Returns the response, the updated store and the list of published
messages. -/
def labelCloudCore (cfg : Config) (ext : Collab) (origin : ℚ × ℚ × ℚ) (cloud : List Pt)
    (wid : String) (store : List (String × List Pt)) :
    Response × List (String × List Pt) × List (List PtC) :=
  let d := decodeOf cfg ext origin cloud
  let store2 := storeObs store wid d.2.2.2
  ({ index_to_label_name := cfg.labelNames
     label := d.1
     label_probabilities := d.2.1
     label_frequencies := d.2.2.1.map (fun fr => floatDiv fr ((nOf cfg ext origin cloud : ℕ) : ℚ))
     points := pointsLoop d.2.2.2 (colOrder (keptOf cfg ext origin cloud)) },
   store2, [publish_clouds store2])

/-- The post-acquisition body of `Labeler::label_cloud_plus`
(lines 259-390), which textually duplicates the body of
`Labeler::label_cloud`. -/
def labelCloudPlusCore (cfg : Config) (ext : Collab) (origin : ℚ × ℚ × ℚ) (cloud : List Pt)
    (wid : String) (store : List (String × List Pt)) :
    Response × List (String × List Pt) × List (List PtC) :=
  let d := decodeOf cfg ext origin cloud
  let store2 := storeObs store wid d.2.2.2
  ({ index_to_label_name := cfg.labelNames
     label := d.1
     label_probabilities := d.2.1
     label_frequencies := d.2.2.1.map (fun fr => floatDiv fr ((nOf cfg ext origin cloud : ℕ) : ℚ))
     points := pointsLoop d.2.2.2 (colOrder (keptOf cfg ext origin cloud)) },
   store2, [publish_clouds store2])

/-- The result of a successful cloud acquisition (lines 71-83): the
acquired cloud and the frame id of its header. -/
structure AcqResult where
  cloud : List Pt
  frame_id : String

/-- The mutable state of a `Labeler` instance: the stored waypoint clouds
and the last frame id (lines 437-438). -/
structure LabState where
  stored_waypoints : List (String × List Pt)
  frame_id : String

/-- `Labeler::label_cloud` (lines 63-225). The two external acquisition
calls are modelled by their results: `none` models a failed service call.
On either failure the handler returns `false` immediately (lines 84-91)
with the state unchanged and nothing published; otherwise it runs the
pipeline body, updates the state and publishes. Returns `(success flag,
response if any, new state, published messages)`. -/
def label_cloud (cfg : Config) (ext : Collab) (wid : String)
    (acq : Option AcqResult) (orig : Option (ℚ × ℚ × ℚ)) (st : LabState) :
    Bool × Option Response × LabState × List (List PtC) :=
  match acq with
  | none => (false, none, st, [])
  | some a =>
    match orig with
    | none => (false, none, st, [])
    | some o =>
      let r := labelCloudCore cfg ext o a.cloud wid st.stored_waypoints
      (true, some r.1, { stored_waypoints := r.2.1, frame_id := a.frame_id }, r.2.2)

/-- `Labeler::label_cloud_plus` (lines 227-391): identical to `label_cloud`
except that the request additionally carries an instance number, which is
consumed only by the external acquisition service (line 234). -/
def label_cloud_plus (cfg : Config) (ext : Collab) (wid : String) (_instance_number : ℕ)
    (acq : Option AcqResult) (orig : Option (ℚ × ℚ × ℚ)) (st : LabState) :
    Bool × Option Response × LabState × List (List PtC) :=
  match acq with
  | none => (false, none, st, [])
  | some a =>
    match orig with
    | none => (false, none, st, [])
    | some o =>
      let r := labelCloudPlusCore cfg ext o a.cloud wid st.stored_waypoints
      (true, some r.1, { stored_waypoints := r.2.1, frame_id := a.frame_id }, r.2.2)

/-- A two-point cloud used as a concrete test input. -/
def exCloud2 : List Pt :=
  [{ x := 0, y := 0, z := 0, r := 10, g := 20, b := 30, a := 0 },
   { x := 1, y := 0, z := 0, r := 40, g := 50, b := 60, a := 0 }]

/-- A three-point cloud used as a concrete test input. -/
def exCloud3 : List Pt :=
  [{ x := 0, y := 0, z := 0, r := 10, g := 20, b := 30, a := 0 },
   { x := 1, y := 0, z := 0, r := 40, g := 50, b := 60, a := 0 },
   { x := 2, y := 3, z := 4, r := 70, g := 80, b := 90, a := 0 }]

/-- A single supervoxel of two points, all below a threshold of 3. -/
def exVoxelsSmall : List (ℕ × Voxel) := [(0, { indices := [0, 1] })]

/-- Two supervoxels of sizes 2 and 1 over the three-point cloud. -/
def exVoxelsB : List (ℕ × Voxel) := [(0, { indices := [0, 1] }), (1, { indices := [2] })]

/-- A concrete probability matrix over 2 classes: column 0 prefers class 0,
column 1 prefers class 1. -/
def exMapP (c j : ℕ) : ℚ :=
  if c = 0 then (if j = 0 then 2/3 else 1/4) else (if j = 0 then 1/3 else 3/4)

/-- Concrete collaborators whose voxelization of any input yields the
single small supervoxel over the two-point cloud. -/
def exCollabSmall : Collab :=
  { bgr2lab := fun c => c
    extractVoxels := fun _ _ => (exVoxelsSmall, exCloud2)
    classLogPosterior := fun _ => [1/2, 1/2]
    l2rgb := fun lab => if lab = 0 then (255, 0, 0) else (0, 255, 0)
    inferenceRun := fun _ _ _ _ _ _ c j => exMapP c j }

/-- Concrete collaborators whose voxelization of any input yields the two
supervoxels of sizes 2 and 1 over the three-point cloud. -/
def exCollabB : Collab :=
  { bgr2lab := fun c => c
    extractVoxels := fun _ _ => (exVoxelsB, exCloud3)
    classLogPosterior := fun _ => [1/2, 1/2]
    l2rgb := fun lab => if lab = 0 then (255, 0, 0) else (0, 255, 0)
    inferenceRun := fun _ _ _ _ _ _ c j => exMapP c j }

/-- A concrete configuration with 2 classes and a minimum point count of 3
(so the single 2-point supervoxel of `exCollabSmall` is discarded and
`N = 0`). -/
def exCfgSmall : Config :=
  { C := 2, minimum_points := 3, appearance_color_sigma := 1,
    appearance_range_sigma := 1, appearance_weight := 1,
    smoothnes_range_sigma := 1, smoothnes_weight := 1, crf_iterations := 10,
    labelNames := ["wall", "floor"] }

/-- A concrete configuration with 2 classes and a minimum point count of 2
(so `exCollabB`'s size-2 supervoxel is retained and the size-1 one is
discarded, `N = 2`). -/
def exCfgB : Config :=
  { C := 2, minimum_points := 2, appearance_color_sigma := 1,
    appearance_range_sigma := 1, appearance_weight := 1,
    smoothnes_range_sigma := 1, smoothnes_weight := 1, crf_iterations := 10,
    labelNames := ["wall", "floor"] }

/-- A concrete 3-class probability column with a tie between classes 1 and 2
(used to check the tie-breaking rule). -/
def exTieMap (c _j : ℕ) : ℚ := [5, 7, 7].getD c 0

/-- A concrete one-entry observation store. -/
def exStore : List (String × List Pt) := [("a", exCloud3)]

theorem getD_map_lt {α β : Type} (f : α → β) (l : List α) (j : ℕ) (h : j < l.length)
    (d1 : α) (d2 : β) : (l.map f).getD j d2 = f (l.getD j d1) := by
  simp [List.getD_eq_getElem?_getD, List.getElem?_map, List.getElem?_eq_getElem h]

theorem getD_out {α : Type} (l : List α) (j : ℕ) (h : l.length ≤ j) (d : α) :
    l.getD j d = d := by
  simp [List.getD_eq_getElem?_getD, List.getElem?_eq_none h]

theorem getD_mem {α : Type} (l : List α) (k : ℕ) (h : k < l.length) (d : α) :
    l.getD k d ∈ l := by
  rw [List.getD_eq_getElem?_getD, List.getElem?_eq_getElem h]
  exact List.getElem_mem h

theorem getD_append_lt {α : Type} (l1 l2 : List α) (n : ℕ) (h : n < l1.length) (d : α) :
    (l1 ++ l2).getD n d = l1.getD n d := by
  simp [List.getD_eq_getElem?_getD, List.getElem?_append_left h]

theorem getD_append_ge {α : Type} (l1 l2 : List α) (n : ℕ) (h : l1.length ≤ n) (d : α) :
    (l1 ++ l2).getD n d = l2.getD (n - l1.length) d := by
  simp [List.getD_eq_getElem?_getD, List.getElem?_append_right h]

theorem getD_range_map (f : ℕ → ℚ) (C c : ℕ) (h : c < C) :
    ((List.range C).map f).getD c 0 = f c := by
  rw [getD_map_lt f (List.range C) c (by simpa using h) 0 0]
  simp [List.getD_eq_getElem?_getD, List.getElem?_range h]

theorem recolorAt_length (cl : List Pt) (i : ℕ) (c : ℕ × ℕ × ℕ) :
    (recolorAt cl i c).length = cl.length := by
  induction cl generalizing i with
  | nil => rfl
  | cons p ps ih =>
    cases i with
    | zero => rfl
    | succ n => simp [recolorAt, ih]

theorem recolorAt_getD_ne (cl : List Pt) (i k : ℕ) (c : ℕ × ℕ × ℕ) (d : Pt)
    (h : k ≠ i) : (recolorAt cl i c).getD k d = cl.getD k d := by
  induction cl generalizing i k with
  | nil => rfl
  | cons p ps ih =>
    cases i with
    | zero =>
      cases k with
      | zero => exact absurd rfl h
      | succ m => simp [recolorAt]
    | succ n =>
      cases k with
      | zero => simp [recolorAt]
      | succ m =>
        simp only [recolorAt, List.getD_cons_succ]
        exact ih n m (fun hh => h (by rw [hh]))

theorem recolorAt_getD_self (cl : List Pt) (i : ℕ) (c : ℕ × ℕ × ℕ) (d : Pt)
    (h : i < cl.length) : (recolorAt cl i c).getD i d = recolorPt (cl.getD i d) c := by
  induction cl generalizing i with
  | nil => simp at h
  | cons p ps ih =>
    cases i with
    | zero => rfl
    | succ n =>
      simp only [recolorAt, List.getD_cons_succ]
      exact ih n (by simpa using Nat.lt_of_succ_lt_succ (by simpa using h))

theorem recolorAt_out (cl : List Pt) (i : ℕ) (c : ℕ × ℕ × ℕ) (h : cl.length ≤ i) :
    recolorAt cl i c = cl := by
  induction cl generalizing i with
  | nil => rfl
  | cons p ps ih =>
    cases i with
    | zero => simp at h
    | succ n =>
      simp only [recolorAt, List.cons.injEq, true_and]
      exact ih n (by simpa using Nat.le_of_succ_le_succ (by simpa using h))

theorem pos_recolorPt (p : Pt) (c : ℕ × ℕ × ℕ) : pos (recolorPt p c) = pos p := rfl

theorem recolorAt_pos (cl : List Pt) (i k : ℕ) (c : ℕ × ℕ × ℕ) (d : Pt) :
    pos ((recolorAt cl i c).getD k d) = pos (cl.getD k d) := by
  rcases eq_or_ne k i with hk | hk
  · subst hk
    rcases Nat.lt_or_ge k cl.length with hlt | hge
    · rw [recolorAt_getD_self cl k c d hlt, pos_recolorPt]
    · rw [recolorAt_out cl k c hge]
  · rw [recolorAt_getD_ne cl i k c d hk]

theorem blackOut_length (cl : List Pt) : (blackOut cl).length = cl.length := by
  simp [blackOut]

theorem blackOut_getD_lt (cl : List Pt) (i : ℕ) (h : i < cl.length) (d : Pt) :
    (blackOut cl).getD i d = { cl.getD i d with r := 0, g := 0, b := 0 } := by
  exact getD_map_lt _ cl i h d d

theorem blackOut_pos (cl : List Pt) (i : ℕ) (d : Pt) :
    pos ((blackOut cl).getD i d) = pos (cl.getD i d) := by
  rcases Nat.lt_or_ge i cl.length with hlt | hge
  · rw [blackOut_getD_lt cl i hlt d]
    rfl
  · rw [getD_out cl i hge, getD_out (blackOut cl) i (by rw [blackOut_length]; exact hge)]

theorem bumpFreqsFrom_length (col : ℕ → ℚ) (cIdx : ℕ) (fs : List ℚ) :
    (bumpFreqsFrom col cIdx fs).length = fs.length := by
  induction fs generalizing cIdx with
  | nil => rfl
  | cons f fs ih => simp [bumpFreqsFrom, ih]

theorem decodeLoop_labels_length (C : ℕ) (mapP : ℕ → ℕ → ℚ) (l2rgb : ℕ → ℕ × ℕ × ℕ)
    (is : List ℕ) (j : ℕ) (freqs : List ℚ) (cl : List Pt) :
    (decodeLoop C mapP l2rgb is j freqs cl).1.length = is.length := by
  induction is generalizing j freqs cl with
  | nil => rfl
  | cons i is ih => simp [decodeLoop, ih]

theorem decodeLoop_probs_length (C : ℕ) (mapP : ℕ → ℕ → ℚ) (l2rgb : ℕ → ℕ × ℕ × ℕ)
    (is : List ℕ) (j : ℕ) (freqs : List ℚ) (cl : List Pt) :
    (decodeLoop C mapP l2rgb is j freqs cl).2.1.length = is.length * C := by
  induction is generalizing j freqs cl with
  | nil => simp [decodeLoop]
  | cons i is ih =>
    simp only [decodeLoop, List.length_append, List.length_map, List.length_range, ih,
      List.length_cons]
    ring

theorem decodeLoop_freqs_length (C : ℕ) (mapP : ℕ → ℕ → ℚ) (l2rgb : ℕ → ℕ × ℕ × ℕ)
    (is : List ℕ) (j : ℕ) (freqs : List ℚ) (cl : List Pt) :
    (decodeLoop C mapP l2rgb is j freqs cl).2.2.1.length = freqs.length := by
  induction is generalizing j freqs cl with
  | nil => rfl
  | cons i is ih => simp [decodeLoop, ih, bumpFreqsFrom_length]

theorem decodeLoop_cloud_length (C : ℕ) (mapP : ℕ → ℕ → ℚ) (l2rgb : ℕ → ℕ × ℕ × ℕ)
    (is : List ℕ) (j : ℕ) (freqs : List ℚ) (cl : List Pt) :
    (decodeLoop C mapP l2rgb is j freqs cl).2.2.2.length = cl.length := by
  induction is generalizing j freqs cl with
  | nil => rfl
  | cons i is ih => simp [decodeLoop, ih, recolorAt_length]

theorem decodeLoop_labels_getD (C : ℕ) (mapP : ℕ → ℕ → ℚ) (l2rgb : ℕ → ℕ × ℕ × ℕ)
    (is : List ℕ) (j : ℕ) (freqs : List ℚ) (cl : List Pt) (k : ℕ) (hk : k < is.length) :
    (decodeLoop C mapP l2rgb is j freqs cl).1.getD k 0
      = decodeLabel C (fun c => mapP c (j + k)) := by
  induction is generalizing j freqs cl k with
  | nil => simp at hk
  | cons i is ih =>
    cases k with
    | zero => simp [decodeLoop]
    | succ m =>
      have hm : m < is.length := by simpa using Nat.lt_of_succ_lt_succ (by simpa using hk)
      simp only [decodeLoop, List.getD_cons_succ]
      rw [ih (j + 1) _ _ m hm]
      have : j + 1 + m = j + (m + 1) := by omega
      rw [this]

theorem decodeLoop_probs_getD (C : ℕ) (mapP : ℕ → ℕ → ℚ) (l2rgb : ℕ → ℕ × ℕ × ℕ)
    (is : List ℕ) (j : ℕ) (freqs : List ℚ) (cl : List Pt) (k c : ℕ)
    (hk : k < is.length) (hc : c < C) :
    (decodeLoop C mapP l2rgb is j freqs cl).2.1.getD (k * C + c) 0 = mapP c (j + k) := by
  induction is generalizing j freqs cl k with
  | nil => simp at hk
  | cons i is ih =>
    cases k with
    | zero =>
      simp only [decodeLoop, Nat.zero_mul, Nat.zero_add]
      rw [getD_append_lt _ _ c (by simpa using hc) 0]
      rw [getD_range_map _ C c hc]
      simp
    | succ m =>
      have hm : m < is.length := by simpa using Nat.lt_of_succ_lt_succ (by simpa using hk)
      have harith : (m + 1) * C + c = C + (m * C + c) := by ring
      simp only [decodeLoop]
      rw [harith, getD_append_ge _ _ (C + (m * C + c))
        (by simp only [List.length_map, List.length_range]; omega) 0]
      simp only [List.length_map, List.length_range]
      have h2 : C + (m * C + c) - C = m * C + c := by omega
      rw [h2, ih (j + 1) _ _ m hm]
      have : j + 1 + m = j + (m + 1) := by omega
      rw [this]

theorem decodeLoop_cloud_pos (C : ℕ) (mapP : ℕ → ℕ → ℚ) (l2rgb : ℕ → ℕ × ℕ × ℕ)
    (is : List ℕ) (j : ℕ) (freqs : List ℚ) (cl : List Pt) (i : ℕ) (d : Pt) :
    pos ((decodeLoop C mapP l2rgb is j freqs cl).2.2.2.getD i d) = pos (cl.getD i d) := by
  induction is generalizing j freqs cl with
  | nil => rfl
  | cons i2 is ih =>
    simp only [decodeLoop]
    rw [ih]
    exact recolorAt_pos cl i2 i _ d

theorem decodeLoop_cloud_not_mem (C : ℕ) (mapP : ℕ → ℕ → ℚ) (l2rgb : ℕ → ℕ × ℕ × ℕ)
    (is : List ℕ) (j : ℕ) (freqs : List ℚ) (cl : List Pt) (i : ℕ) (d : Pt)
    (h : i ∉ is) :
    (decodeLoop C mapP l2rgb is j freqs cl).2.2.2.getD i d = cl.getD i d := by
  induction is generalizing j freqs cl with
  | nil => rfl
  | cons i2 is ih =>
    simp only [decodeLoop]
    rw [ih _ _ _ (fun hm => h (List.mem_cons_of_mem _ hm))]
    exact recolorAt_getD_ne cl i2 i _ d (fun hh => h (hh ▸ List.mem_cons_self i2 is))

theorem decodeLoop_paint (C : ℕ) (mapP : ℕ → ℕ → ℚ) (l2rgb : ℕ → ℕ × ℕ × ℕ)
    (is : List ℕ) (j : ℕ) (freqs : List ℚ) (cl : List Pt) (k : ℕ)
    (hnd : is.Nodup) (hbound : ∀ i ∈ is, i < cl.length) (hk : k < is.length) :
    (decodeLoop C mapP l2rgb is j freqs cl).2.2.2.getD (is.getD k 0) default
      = recolorPt (cl.getD (is.getD k 0) default)
          (l2rgb (decodeLabel C (fun c => mapP c (j + k)))) := by
  induction is generalizing j freqs cl k with
  | nil => simp at hk
  | cons i is ih =>
    have hi_not : i ∉ is := (List.nodup_cons.mp hnd).1
    cases k with
    | zero =>
      simp only [decodeLoop, List.getD_cons_zero]
      rw [decodeLoop_cloud_not_mem _ _ _ _ _ _ _ _ _ hi_not]
      rw [recolorAt_getD_self cl i _ default (hbound i (List.mem_cons_self i is))]
      simp
    | succ m =>
      have hm : m < is.length := by simpa using Nat.lt_of_succ_lt_succ (by simpa using hk)
      have hidx_mem : is.getD m 0 ∈ is := getD_mem is m hm 0
      have hne : is.getD m 0 ≠ i := fun hh => hi_not (hh ▸ hidx_mem)
      simp only [decodeLoop, List.getD_cons_succ]
      rw [ih (j + 1) _ _ m (List.nodup_cons.mp hnd).2
        (fun i2 hi2 => by rw [recolorAt_length]; exact hbound i2 (List.mem_cons_of_mem _ hi2)) hm]
      rw [recolorAt_getD_ne cl i _ _ default hne]
      have : j + 1 + m = j + (m + 1) := by omega
      rw [this]

theorem colOrder_cons (kv : ℕ × Voxel) (rest : List (ℕ × Voxel)) :
    colOrder (kv :: rest) = kv.2.indices ++ colOrder rest := by
  simp [colOrder]

theorem zipOrder_cons (kv : ℕ × Voxel) (rest : List (ℕ × Voxel)) :
    zipOrder (kv :: rest) = kv.2.indices.map (fun i => (i, kv.2)) ++ zipOrder rest := by
  simp [zipOrder]

theorem colOrder_eq_map_fst (kept : List (ℕ × Voxel)) :
    colOrder kept = (zipOrder kept).map (fun e => e.1) := by
  induction kept with
  | nil => rfl
  | cons kv rest ih =>
    rw [colOrder_cons, zipOrder_cons, List.map_append, ih, List.map_map]
    simp [Function.comp_def]

theorem length_colOrder (kept : List (ℕ × Voxel)) :
    (colOrder kept).length = (kept.map (fun kv => kv.2.size)).sum := by
  simp [colOrder, Voxel.size, List.length_flatten, List.map_map, Function.comp_def]

theorem length_zipOrder (kept : List (ℕ × Voxel)) :
    (zipOrder kept).length = (colOrder kept).length := by
  rw [colOrder_eq_map_fst]
  simp

theorem mem_colOrder (kept : List (ℕ × Voxel)) (i : ℕ) :
    i ∈ colOrder kept ↔ ∃ kv ∈ kept, i ∈ kv.2.indices := by
  simp only [colOrder, List.mem_flatten, List.mem_map]
  constructor
  · rintro ⟨l, ⟨kv, hkv, rfl⟩, hi⟩
    exact ⟨kv, hkv, hi⟩
  · rintro ⟨kv, hkv, hi⟩
    exact ⟨kv.2.indices, ⟨kv, hkv, rfl⟩, hi⟩

theorem buildLoop_unary (cls : Voxel → List ℚ) (voxCloud : List Pt) (acs ars srs : ℚ)
    (kept : List (ℕ × Voxel)) :
    (buildLoop cls voxCloud acs ars srs kept).1
      = (zipOrder kept).map (fun e => cls e.2) := by
  induction kept with
  | nil => rfl
  | cons kv rest ih =>
    rw [zipOrder_cons, List.map_append, List.map_map]
    simp only [buildLoop, addDataToCrfMats, ih, Function.comp_def]

theorem buildLoop_calls (cls : Voxel → List ℚ) (voxCloud : List Pt) (acs ars srs : ℚ)
    (kept : List (ℕ × Voxel)) :
    (buildLoop cls voxCloud acs ars srs kept).2.2.2 = kept.map (fun kv => kv.1) := by
  induction kept with
  | nil => rfl
  | cons kv rest ih => simp [buildLoop, ih]

theorem filterLoop_kept (minPts : ℕ) (voxels : List (ℕ × Voxel)) :
    (filterLoop minPts voxels).2.1
      = voxels.filter (fun kv => minPts ≤ kv.2.size) := by
  induction voxels with
  | nil => rfl
  | cons kv rest ih =>
    by_cases h : minPts ≤ kv.2.size
    · simp [filterLoop, h, List.filter_cons, ih]
    · simp [filterLoop, h, List.filter_cons, ih]

theorem filterLoop_N (minPts : ℕ) (voxels : List (ℕ × Voxel)) :
    (filterLoop minPts voxels).1
      = ((filterLoop minPts voxels).2.1.map (fun kv => kv.2.size)).sum := by
  induction voxels with
  | nil => rfl
  | cons kv rest ih =>
    by_cases h : minPts ≤ kv.2.size
    · simp [filterLoop, h, ih]
    · simp [filterLoop, h, ih]

theorem filterLoop_calls (minPts : ℕ) (voxels : List (ℕ × Voxel)) :
    (filterLoop minPts voxels).2.2
      = (filterLoop minPts voxels).2.1.map (fun kv => kv.1) := by
  induction voxels with
  | nil => rfl
  | cons kv rest ih =>
    by_cases h : minPts ≤ kv.2.size
    · simp [filterLoop, h, ih]
    · simp [filterLoop, h, ih]

theorem argmaxFrom_range' (col : ℕ → ℚ) :
    ∀ (n t lab : ℕ), lab < t → (∀ c, c < t → col c ≤ col lab) →
      (∀ c, c < lab → col c < col lab) →
      argmaxFrom col lab (col lab) (List.range' t n) < t + n ∧
      (∀ c, c < t + n → col c ≤ col (argmaxFrom col lab (col lab) (List.range' t n))) ∧
      (∀ c, c < argmaxFrom col lab (col lab) (List.range' t n) →
        col c < col (argmaxFrom col lab (col lab) (List.range' t n))) := by
  intro n
  induction n with
  | zero =>
    intro t lab h1 h2 h3
    simp only [List.range'_zero, argmaxFrom, Nat.add_zero]
    exact ⟨h1, h2, h3⟩
  | succ n ih =>
    intro t lab h1 h2 h3
    rw [List.range'_succ]
    by_cases hgt : col t > col lab
    · simp only [argmaxFrom, if_pos hgt]
      have := ih (t + 1) t (Nat.lt_succ_self t)
        (fun c hc => by
          rcases Nat.lt_or_ge c t with hlt | hge
          · exact le_of_lt (lt_of_le_of_lt (h2 c hlt) hgt)
          · have : c = t := by omega
            rw [this])
        (fun c hc => lt_of_le_of_lt (h2 c hc) hgt)
      refine ⟨by omega, fun c hc => this.2.1 c (by omega), this.2.2⟩
    · simp only [argmaxFrom, if_neg hgt]
      have := ih (t + 1) lab (by omega)
        (fun c hc => by
          rcases Nat.lt_or_ge c t with hlt | hge
          · exact h2 c hlt
          · have : c = t := by omega
            rw [this]
            exact le_of_not_lt hgt)
        h3
      refine ⟨by omega, fun c hc => this.2.1 c (by omega), this.2.2⟩

theorem decodeLabel_spec (C : ℕ) (hC : 0 < C) (col : ℕ → ℚ) :
    decodeLabel C col < C ∧ (∀ c, c < C → col c ≤ col (decodeLabel C col)) ∧
      (∀ c, c < decodeLabel C col → col c < col (decodeLabel C col)) := by
  have h := argmaxFrom_range' col (C - 1) 1 0 Nat.zero_lt_one
    (fun c hc => by interval_cases c; exact le_refl _)
    (fun c hc => by omega)
  have hCC : 1 + (C - 1) = C := by omega
  rw [hCC] at h
  exact h

theorem pointsLoop_getD (cl : List Pt) (is : List ℕ) (j : ℕ) (hj : j < is.length) :
    (pointsLoop cl is).getD j (0, 0, 0) = pos (cl.getD (is.getD j 0) default) := by
  unfold pointsLoop
  rw [getD_map_lt _ is j hj 0 (0, 0, 0)]

theorem pointsLoop_length (cl : List Pt) (is : List ℕ) :
    (pointsLoop cl is).length = is.length := by
  simp [pointsLoop]

theorem lookup_storeObs_self (m : List (String × List Pt)) (k : String) (v : List Pt) :
    lookupStore (storeObs m k v) k = some v := by
  induction m with
  | nil => simp [storeObs, lookupStore]
  | cons kv rest ih =>
    obtain ⟨k2, v2⟩ := kv
    by_cases h : k = k2
    · simp [storeObs, h, lookupStore]
    · by_cases h2 : k < k2
      · simp [storeObs, h, h2, lookupStore]
      · simp [storeObs, h, h2, lookupStore, ih]

theorem lookup_storeObs_ne (m : List (String × List Pt)) (k k2 : String) (v : List Pt)
    (h : k2 ≠ k) : lookupStore (storeObs m k v) k2 = lookupStore m k2 := by
  induction m with
  | nil => simp [storeObs, lookupStore, h]
  | cons kv rest ih =>
    obtain ⟨k3, v3⟩ := kv
    by_cases ha : k = k3
    · subst ha
      simp [storeObs, lookupStore, h]
    · by_cases hb : k < k3
      · simp [storeObs, ha, hb, lookupStore, h]
      · simp [storeObs, ha, hb, lookupStore, ih]

theorem storeObs_storeObs (m : List (String × List Pt)) (k : String) (v v2 : List Pt) :
    storeObs (storeObs m k v) k v2 = storeObs m k v2 := by
  induction m with
  | nil => simp [storeObs]
  | cons kv rest ih =>
    obtain ⟨k3, v3⟩ := kv
    by_cases ha : k = k3
    · simp [storeObs, ha]
    · by_cases hb : k < k3
      · simp [storeObs, ha, hb]
      · simp [storeObs, ha, hb, ih]

theorem fuseLoop_length (m : List (String × List Pt)) :
    (fuseLoop m).length = (m.map (fun kv => kv.2.length)).sum := by
  induction m with
  | nil => rfl
  | cons kv rest ih =>
    obtain ⟨k, cl⟩ := kv
    simp [fuseLoop, ih]

theorem fuseLoop_eq_flatten (m : List (String × List Pt)) :
    fuseLoop m = ((m.map (fun kv => kv.2)).flatten).map toRGB := by
  induction m with
  | nil => rfl
  | cons kv rest ih =>
    obtain ⟨k, cl⟩ := kv
    simp [fuseLoop, ih]

theorem count_fst_filter {α β : Type} [DecidableEq α] (p : α × β → Bool)
    (l : List (α × β)) (kv : α × β) (hnd : (l.map (fun e => e.1)).Nodup)
    (hmem : kv ∈ l) :
    ((l.filter p).map (fun e => e.1)).count kv.1 = if p kv then 1 else 0 := by
  induction l with
  | nil => simp at hmem
  | cons kv2 rest ih =>
    rw [List.map_cons] at hnd
    have hnd2 := List.nodup_cons.mp hnd
    rcases List.mem_cons.mp hmem with heq | hmem2
    · subst heq
      have hnotin : kv.1 ∉ (rest.filter p).map (fun e => e.1) :=
        fun hmm => hnd2.1 (List.map_subset _ (List.filter_subset' rest) hmm)
      by_cases hp : p kv
      · simp [List.filter_cons, hp, List.count_cons, List.count_eq_zero.mpr hnotin]
      · simp [List.filter_cons, hp, List.count_eq_zero.mpr hnotin]
    · have hkne : kv.1 ≠ kv2.1 := by
        intro hh
        exact hnd2.1 (hh ▸ List.mem_map_of_mem (fun e => e.1) hmem2)
      by_cases hp : p kv2
      · simp [List.filter_cons, hp, List.count_cons, hkne, ih hnd2.2 hmem2]
      · simp [List.filter_cons, hp, ih hnd2.2 hmem2]

theorem length_colOrder_keptOf (cfg : Config) (ext : Collab) (origin : ℚ × ℚ × ℚ)
    (cloud : List Pt) :
    (colOrder (keptOf cfg ext origin cloud)).length = nOf cfg ext origin cloud := by
  rw [length_colOrder]
  unfold keptOf nOf
  rw [filterLoop_N]

/-- C3: for every probability matrix column `j`, the decoded hard label
equals the lowest class index `c` in `0..C-1` attaining the maximum of
`probability[c][j]` over all classes; in particular, when several classes
tie for the maximum, the smallest class index wins (the decoded label is
below `C`, no class beats it, and every class below it is strictly
worse). -/
theorem claim3_argmax_lowest_index (C : ℕ) (hC : 0 < C) (mapP : ℕ → ℕ → ℚ) (j : ℕ) :
    decodeLabel C (fun c => mapP c j) < C ∧
    (∀ c, c < C → mapP c j ≤ mapP (decodeLabel C (fun c => mapP c j)) j) ∧
    (∀ c, c < decodeLabel C (fun c => mapP c j) →
      mapP c j < mapP (decodeLabel C (fun c => mapP c j)) j) :=
  decodeLabel_spec C hC (fun c => mapP c j)

/-- Witness for C3, at the concrete tied column `[5, 7, 7]` (classes 1 and
2 tie for the maximum; the decoded label is 1, the lowest of them). -/
theorem claim3_witness :
    decodeLabel 3 (fun c => exTieMap c 0) = 1 ∧
    (decodeLabel 3 (fun c => exTieMap c 0) < 3 ∧
     (∀ c, c < 3 → exTieMap c 0 ≤ exTieMap (decodeLabel 3 (fun c => exTieMap c 0)) 0) ∧
     (∀ c, c < decodeLabel 3 (fun c => exTieMap c 0) →
       exTieMap c 0 < exTieMap (decodeLabel 3 (fun c => exTieMap c 0)) 0)) :=
  ⟨by decide, claim3_argmax_lowest_index 3 (by decide) exTieMap 0⟩

/-- C1 (code bug): at a request where every segment is filtered out
(`N = 0`), the response's label, probability and points arrays are empty as
the claim says, but the frequency array is not all-zero: the unguarded
division `label_frequencies[j] /= float(N)` at line 197 divides the
all-zero accumulator by `float(0)`, producing NaN (modelled as `none`) in
every entry. -/
theorem claim1_nan_frequencies_at_zero_N :
    (labelCloudCore exCfgSmall exCollabSmall (0, 0, 0) exCloud2 "wp" []).1.label_frequencies
      = [none, none] ∧
    (labelCloudCore exCfgSmall exCollabSmall (0, 0, 0) exCloud2 "wp" []).1.label = [] ∧
    (labelCloudCore exCfgSmall exCollabSmall (0, 0, 0) exCloud2 "wp" []).1.label_probabilities
      = [] ∧
    (labelCloudCore exCfgSmall exCollabSmall (0, 0, 0) exCloud2 "wp" []).1.points = [] := by
  refine ⟨?_, rfl, rfl, rfl⟩
  rfl

/-- C6: for every request whose cloud acquisition or origin acquisition
fails, the handler reports failure (`false`), leaves the stored-observation
state unchanged, returns no response fields and publishes nothing. -/
theorem claim6_failure_no_mutation (cfg : Config) (ext : Collab) (wid : String)
    (acq : Option AcqResult) (orig : Option (ℚ × ℚ × ℚ)) (st : LabState)
    (h : acq = none ∨ orig = none) :
    label_cloud cfg ext wid acq orig st = (false, none, st, []) := by
  rcases h with h | h
  · subst h
    rfl
  · subst h
    cases acq <;> rfl

/-- Witness for C6, at a concrete failed cloud acquisition. -/
theorem claim6_witness :
    label_cloud exCfgSmall exCollabSmall "wp" none (some (0, 0, 0))
        { stored_waypoints := exStore, frame_id := "f" }
      = (false, none, { stored_waypoints := exStore, frame_id := "f" }, []) :=
  claim6_failure_no_mutation exCfgSmall exCollabSmall "wp" none (some (0, 0, 0))
    { stored_waypoints := exStore, frame_id := "f" } (Or.inl rfl)

/-- C8: the two request variants compute identical results after
acquisition: given the same acquired cloud, origin, configuration and
collaborators, `label_cloud_plus` (whose body textually duplicates
`label_cloud`) produces the same response, stored-state update and
published output. -/
theorem claim8_variants_agree (cfg : Config) (ext : Collab) (wid : String)
    (inst : ℕ) (acq : Option AcqResult) (orig : Option (ℚ × ℚ × ℚ)) (st : LabState) :
    label_cloud_plus cfg ext wid inst acq orig st = label_cloud cfg ext wid acq orig st := by
  cases acq with
  | none => rfl
  | some a => cases orig <;> rfl

/-- C5: storing under an identifier unconditionally inserts or overwrites
that identifier's entry (lookups of other identifiers are unchanged),
re-storing an existing identifier replaces rather than duplicates its
contribution, and the fused cloud built at publish time has point count
equal to the exact sum of all stored observations' point counts with each
stored cloud's coordinates and colors copied verbatim in store order. -/
theorem claim5_store_fuse (m : List (String × List Pt)) (k k2 : String)
    (v v2 : List Pt) :
    lookupStore (storeObs m k v) k = some v ∧
    (k2 ≠ k → lookupStore (storeObs m k v) k2 = lookupStore m k2) ∧
    storeObs (storeObs m k v) k v2 = storeObs m k v2 ∧
    (publish_clouds m).length = (m.map (fun kv => kv.2.length)).sum ∧
    publish_clouds m = ((m.map (fun kv => kv.2)).flatten).map toRGB :=
  ⟨lookup_storeObs_self m k v, fun h => lookup_storeObs_ne m k k2 v h,
   storeObs_storeObs m k v v2, fuseLoop_length m, fuseLoop_eq_flatten m⟩

/-- Witness for C5: storing under "b" leaves the entry of "a" unchanged in
a concrete store. -/
theorem claim5_witness :
    lookupStore (storeObs exStore "b" exCloud2) "a" = lookupStore exStore "a" :=
  (claim5_store_fuse exStore "b" "a" exCloud2 []).2.1 (by decide)

/-- C4: the filter retains exactly the segments whose point count is at
least the threshold, `N` equals the sum of the retained segments' sizes,
and (provided the discarded segment's points belong to no other segment) no
point of a discarded segment appears among the flattened member indices of
the retained set, the index stream that drives every output array. -/
theorem claim4_filter_threshold (minPts : ℕ) (voxels : List (ℕ × Voxel)) :
    (filterLoop minPts voxels).2.1 = voxels.filter (fun kv => minPts ≤ kv.2.size) ∧
    (filterLoop minPts voxels).1
      = ((voxels.filter (fun kv => minPts ≤ kv.2.size)).map (fun kv => kv.2.size)).sum ∧
    (∀ kv, kv ∈ voxels → kv.2.size < minPts →
      (∀ kv2, kv2 ∈ voxels → kv2 ≠ kv → ∀ i, i ∈ kv.2.indices → i ∉ kv2.2.indices) →
      ∀ i, i ∈ kv.2.indices → i ∉ colOrder (filterLoop minPts voxels).2.1) := by
  refine ⟨filterLoop_kept minPts voxels, ?_, ?_⟩
  · rw [filterLoop_N, filterLoop_kept]
  · intro kv hkv hsize hdisj i hi hcol
    rw [filterLoop_kept] at hcol
    obtain ⟨kv2, hkv2mem, hikv2⟩ := (mem_colOrder _ i).mp hcol
    have h2 := List.mem_filter.mp hkv2mem
    have hsz2 : minPts ≤ kv2.2.size := by simpa using h2.2
    have hne : kv2 ≠ kv := by
      intro hh
      rw [hh] at hsz2
      omega
    exact hdisj kv2 h2.1 hne i hi hikv2

/-- Witness for C4: in the one-segment example below the threshold, the
discarded segment's point 0 is absent from the retained index stream. -/
theorem claim4_witness : (0 : ℕ) ∉ colOrder (filterLoop 3 exVoxelsSmall).2.1 :=
  (claim4_filter_threshold 3 exVoxelsSmall).2.2 (0, { indices := [0, 1] }) (by decide)
    (by decide) (by decide) 0 (by decide)

/-- C2: the column index assigned to a physical point is the same at every
stage: for every column `j` of the retained index stream, the unary matrix
column `j` holds the posterior of the voxel owning the `j`-th flattened
point, the `j`-th flattened member index is that point's index, the label
at position `j` decodes probability column `j`, the probability row `j`
holds column `j` of the probability matrix, and the coordinate at position
`j` is the coordinate of that same physical point. -/
theorem claim2_column_consistency (C : ℕ) (mapP : ℕ → ℕ → ℚ)
    (l2rgb : ℕ → ℕ × ℕ × ℕ) (cls : Voxel → List ℚ) (voxCloud : List Pt)
    (acs ars srs : ℚ) (kept : List (ℕ × Voxel)) (freqs0 : List ℚ) (j : ℕ)
    (hj : j < (colOrder kept).length) :
    (buildLoop cls voxCloud acs ars srs kept).1.getD j []
      = cls ((zipOrder kept).getD j (0, { indices := [] })).2 ∧
    (colOrder kept).getD j 0 = ((zipOrder kept).getD j (0, { indices := [] })).1 ∧
    (decodeLoop C mapP l2rgb (colOrder kept) 0 freqs0 (blackOut voxCloud)).1.getD j 0
      = decodeLabel C (fun c => mapP c j) ∧
    (∀ c, c < C →
      (decodeLoop C mapP l2rgb (colOrder kept) 0 freqs0 (blackOut voxCloud)).2.1.getD
          (j * C + c) 0 = mapP c j) ∧
    (pointsLoop (decodeLoop C mapP l2rgb (colOrder kept) 0 freqs0 (blackOut voxCloud)).2.2.2
        (colOrder kept)).getD j (0, 0, 0)
      = pos (voxCloud.getD ((zipOrder kept).getD j (0, { indices := [] })).1 default) := by
  have hjz : j < (zipOrder kept).length := by rw [length_zipOrder]; exact hj
  have h2 : (colOrder kept).getD j 0 = ((zipOrder kept).getD j (0, { indices := [] })).1 := by
    rw [colOrder_eq_map_fst]
    exact getD_map_lt _ (zipOrder kept) j hjz (0, { indices := [] }) 0
  refine ⟨?_, h2, ?_, ?_, ?_⟩
  · rw [buildLoop_unary]
    exact getD_map_lt _ (zipOrder kept) j hjz (0, { indices := [] }) []
  · rw [decodeLoop_labels_getD _ _ _ _ _ _ _ j hj]
    simp
  · intro c hc
    rw [decodeLoop_probs_getD _ _ _ _ _ _ _ j c hj hc]
    simp
  · rw [pointsLoop_getD _ _ j hj, decodeLoop_cloud_pos, blackOut_pos, h2]

/-- Witness for C2, at a concrete one-segment request: the hard label at
position 1 decodes probability column 1. -/
theorem claim2_witness :
    (decodeLoop 2 exMapP (fun lab => if lab = 0 then (255, 0, 0) else (0, 255, 0))
        (colOrder [(0, { indices := [0, 1] })]) 0 [0, 0] (blackOut exCloud3)).1.getD 1 0
      = decodeLabel 2 (fun c => exMapP c 1) :=
  (claim2_column_consistency 2 exMapP (fun lab => if lab = 0 then (255, 0, 0) else (0, 255, 0))
    (fun _ => [1/2, 1/2]) exCloud3 1 1 1 [(0, { indices := [0, 1] })] [0, 0] 1
    (by decide)).2.2.1

/-- C7: for every request, the external classifier is invoked exactly once
per retained segment (and never for a discarded one), feature computation
is triggered exactly once per retained segment, and every point of a
segment receives a copy of that single per-segment posterior in its
unary-matrix column. -/
theorem claim7_one_call_per_segment (minPts : ℕ) (voxels : List (ℕ × Voxel))
    (cls : Voxel → List ℚ) (voxCloud : List Pt) (acs ars srs : ℚ)
    (hnd : (voxels.map (fun kv => kv.1)).Nodup) :
    (buildLoop cls voxCloud acs ars srs (filterLoop minPts voxels).2.1).2.2.2
      = (filterLoop minPts voxels).2.1.map (fun kv => kv.1) ∧
    (filterLoop minPts voxels).2.2
      = (filterLoop minPts voxels).2.1.map (fun kv => kv.1) ∧
    (∀ kv, kv ∈ voxels →
      ((buildLoop cls voxCloud acs ars srs (filterLoop minPts voxels).2.1).2.2.2).count kv.1
        = if minPts ≤ kv.2.size then 1 else 0) ∧
    (∀ j, j < (colOrder (filterLoop minPts voxels).2.1).length →
      (buildLoop cls voxCloud acs ars srs (filterLoop minPts voxels).2.1).1.getD j []
        = cls ((zipOrder (filterLoop minPts voxels).2.1).getD j (0, { indices := [] })).2) := by
  refine ⟨buildLoop_calls cls voxCloud acs ars srs _,
    filterLoop_calls minPts voxels, ?_, ?_⟩
  · intro kv hkv
    rw [buildLoop_calls, filterLoop_kept]
    rw [count_fst_filter _ voxels kv hnd hkv]
    by_cases h : minPts ≤ kv.2.size <;> simp [h]
  · intro j hj
    rw [buildLoop_unary]
    exact getD_map_lt _ _ j (by rw [length_zipOrder]; exact hj)
      ((0, { indices := [] }) : ℕ × Voxel) []

/-- Witness for C7: in the concrete two-segment example with threshold 2,
the discarded segment's identifier 1 is never classified. -/
theorem claim7_witness :
    ((buildLoop (fun _ => [1/2, 1/2]) exCloud3 1 1 1 (filterLoop 2 exVoxelsB).2.1).2.2.2).count 1
      = 0 :=
  (claim7_one_call_per_segment 2 exVoxelsB (fun _ => [1/2, 1/2]) exCloud3 1 1 1
    (by decide)).2.2.1 (1, { indices := [2] }) (by decide)

/-- C9: for every successful request, the hard label array has length `N`,
the probability array has length `N * C` and is laid out row-major by point
then class (point `j`'s class-`c` probability at index `j * C + c`), the
frequency array has length `C`, and the coordinates array has length
`N`. -/
theorem claim9_response_shapes (cfg : Config) (ext : Collab) (origin : ℚ × ℚ × ℚ)
    (cloud : List Pt) (wid : String) (store : List (String × List Pt)) :
    (labelCloudCore cfg ext origin cloud wid store).1.label.length
      = nOf cfg ext origin cloud ∧
    (labelCloudCore cfg ext origin cloud wid store).1.label_probabilities.length
      = nOf cfg ext origin cloud * cfg.C ∧
    (labelCloudCore cfg ext origin cloud wid store).1.label_frequencies.length = cfg.C ∧
    (labelCloudCore cfg ext origin cloud wid store).1.points.length
      = nOf cfg ext origin cloud ∧
    (∀ j c, j < nOf cfg ext origin cloud → c < cfg.C →
      (labelCloudCore cfg ext origin cloud wid store).1.label_probabilities.getD
          (j * cfg.C + c) 0 = crfMapOf cfg ext origin cloud c j) := by
  refine ⟨?_, ?_, ?_, ?_, ?_⟩
  · show (decodeOf cfg ext origin cloud).1.length = _
    unfold decodeOf
    rw [decodeLoop_labels_length, length_colOrder_keptOf]
  · show (decodeOf cfg ext origin cloud).2.1.length = _
    unfold decodeOf
    rw [decodeLoop_probs_length, length_colOrder_keptOf]
  · show ((decodeOf cfg ext origin cloud).2.2.1.map _).length = _
    rw [List.length_map]
    unfold decodeOf
    rw [decodeLoop_freqs_length, List.length_replicate]
  · show (pointsLoop (decodeOf cfg ext origin cloud).2.2.2
        (colOrder (keptOf cfg ext origin cloud))).length = _
    rw [pointsLoop_length, length_colOrder_keptOf]
  · intro j c hj hc
    show (decodeOf cfg ext origin cloud).2.1.getD (j * cfg.C + c) 0 = _
    unfold decodeOf
    rw [decodeLoop_probs_getD _ _ _ _ _ _ _ j c
      (by rw [length_colOrder_keptOf]; exact hj) hc]
    simp

/-- Witness for C9, at the concrete request with `N = 2`: the probability
entry at index `0 * C + 0` is the probability matrix entry for class 0,
column 0. -/
theorem claim9_witness :
    (labelCloudCore exCfgB exCollabB (0, 0, 0) exCloud3 "wp" []).1.label_probabilities.getD 0 0
      = crfMapOf exCfgB exCollabB (0, 0, 0) exCloud3 0 0 :=
  (claim9_response_shapes exCfgB exCollabB (0, 0, 0) exCloud3 "wp" []).2.2.2.2 0 0
    (by decide) (by decide)

/-- C10: for every request, the cloud stored under the request's identifier
is the recolored voxelized cloud with every voxelized point kept (same
length, nothing removed); points of discarded segments stay black with
color (0,0,0), while each point of a retained segment is recolored with the
color of its decoded label (assuming each physical point occurs once in the
retained index stream and indices are in range). -/
theorem claim10_stored_cloud_keeps_all_points (cfg : Config) (ext : Collab)
    (origin : ℚ × ℚ × ℚ) (cloud : List Pt) (wid : String)
    (store : List (String × List Pt)) :
    lookupStore (labelCloudCore cfg ext origin cloud wid store).2.1 wid
      = some (decodeOf cfg ext origin cloud).2.2.2 ∧
    (decodeOf cfg ext origin cloud).2.2.2.length
      = (voxelizationOf ext origin cloud).2.length ∧
    (∀ i, i < (voxelizationOf ext origin cloud).2.length →
      i ∉ colOrder (keptOf cfg ext origin cloud) →
      (decodeOf cfg ext origin cloud).2.2.2.getD i default
        = { (voxelizationOf ext origin cloud).2.getD i default with
              r := 0, g := 0, b := 0 }) ∧
    ((colOrder (keptOf cfg ext origin cloud)).Nodup →
      (∀ i, i ∈ colOrder (keptOf cfg ext origin cloud) →
        i < (voxelizationOf ext origin cloud).2.length) →
      ∀ j, j < (colOrder (keptOf cfg ext origin cloud)).length →
        (decodeOf cfg ext origin cloud).2.2.2.getD
            ((colOrder (keptOf cfg ext origin cloud)).getD j 0) default
          = recolorPt
              ((voxelizationOf ext origin cloud).2.getD
                ((colOrder (keptOf cfg ext origin cloud)).getD j 0) default)
              (ext.l2rgb ((decodeOf cfg ext origin cloud).1.getD j 0))) := by
  refine ⟨?_, ?_, ?_, ?_⟩
  · show lookupStore (storeObs store wid (decodeOf cfg ext origin cloud).2.2.2) wid = _
    exact lookup_storeObs_self store wid _
  · unfold decodeOf
    rw [decodeLoop_cloud_length, blackOut_length]
  · intro i hi hni
    unfold decodeOf
    rw [decodeLoop_cloud_not_mem _ _ _ _ _ _ _ _ _ hni]
    exact blackOut_getD_lt _ i hi default
  · intro hnd hbound j hj
    have hlab : (decodeOf cfg ext origin cloud).1.getD j 0
        = decodeLabel cfg.C (fun c => crfMapOf cfg ext origin cloud c j) := by
      unfold decodeOf
      rw [decodeLoop_labels_getD _ _ _ _ _ _ _ j hj]
      simp
    rw [hlab]
    have hidx : (colOrder (keptOf cfg ext origin cloud)).getD j 0
        < (voxelizationOf ext origin cloud).2.length :=
      hbound _ (getD_mem _ j hj 0)
    unfold decodeOf
    rw [decodeLoop_paint _ _ _ _ _ _ _ j hnd
      (fun i2 hi2 => by rw [blackOut_length]; exact hbound i2 hi2) hj]
    rw [blackOut_getD_lt _ _ hidx default]
    simp [recolorPt]

/-- Witness for C10, at the concrete request with one discarded segment:
its point (index 2) stays black in the stored cloud. -/
theorem claim10_witness :
    (decodeOf exCfgB exCollabB (0, 0, 0) exCloud3).2.2.2.getD 2 default
      = { (voxelizationOf exCollabB (0, 0, 0) exCloud3).2.getD 2 default with
            r := 0, g := 0, b := 0 } :=
  (claim10_stored_cloud_keeps_all_points exCfgB exCollabB (0, 0, 0) exCloud3 "wp" []).2.2.1 2
    (by decide) (by decide)
